import Mathlib

set_option maxHeartbeats 3200000

/-!
# Verification of the `au3` single-pass compiler front-end (`src/parser.c`)

This file gives a shallow embedding, in Lean, of the compiler in
`src/parser.c` (the Pratt parser / bytecode emitter), together with theorems
settling the specification claims about it.

Modelling conventions:
* The lexer (`lexer_scan`, not under `src/`) is modelled by a list of tokens;
  once the list is exhausted the lexer yields `EOF` tokens forever, as the
  spec's lexer contract states.
* Machine integers are modelled as `Nat` / `Int` with explicit `% 256`
  (for `uint8_t` casts) and explicit 16-bit arithmetic in `patchJump`.
* `fprintf`-based diagnostics are modelled by appending the message string to
  a `diags` list; `errorAt` suppresses the report while `panicMode` is set,
  exactly as the C code does.
* Recursive-descent parsing is embedded as a fuel-indexed mutual recursion;
  running out of fuel returns the state unchanged.  The C functions terminate
  on every input the theorems evaluate, and all theorems either hold for every
  fuel or are witnessed at a concrete fuel.
-/

namespace Au3

/-- Token kinds (`toktype_t`).  The enumeration names follow the
`TOKEN_...` constants referenced by `src/parser.c`. -/
inductive TokType where
  | lparen | rparen | lbracket | rbracket | lbrace | rbrace
  | comma | dot | minus | plus | slash | star
  | bang | bangEq | eq | eqEq | greater | greaterEq | less | lessEq
  | ident | str | num
  | kand | kclass | kelse | kfalse | kfor | kfunc | kif | knot | knull | kor
  | kprint | kreturn | ksuper | kthis | ktrue | kvar | kwhile
  | kglobal | kthen | kend | kendfunc | kendif | kexit
  | err | eof
deriving DecidableEq, Repr

/-- A token (`tok_t`): kind, lexeme text (the slice `start`/`length` of the C
struct), and source line.  The column and line-start pointer only feed the
printed diagnostic text and are not modelled. -/
structure Tok where
  type : TokType
  text : String
  line : Nat
deriving DecidableEq, Repr

/-- Modelled from the spec: the lexer contract (the lexer is not under
`src/`) — once input is exhausted, every further `lexer_scan` returns `EOF`. -/
def eofTok : Tok := { type := .eof, text := "", line := 0 }

/-- Modelled from the spec: opcode byte values.  `code.h` is not under
`src/`; the spec fixes the opcode set (§6) but not the numeric encoding, so
distinct representative byte values are chosen here. -/
def OP_CONST : Nat := 0
def OP_NIL : Nat := 1
def OP_TRUE : Nat := 2
def OP_FALSE : Nat := 3
def OP_POP : Nat := 4
def OP_GLD : Nat := 5
def OP_GST : Nat := 6
def OP_LD : Nat := 7
def OP_ST : Nat := 8
def OP_EQ : Nat := 9
def OP_LT : Nat := 10
def OP_LE : Nat := 11
def OP_ADD : Nat := 12
def OP_SUB : Nat := 13
def OP_MUL : Nat := 14
def OP_DIV : Nat := 15
def OP_NOT : Nat := 16
def OP_NEG : Nat := 17
def OP_PRINT : Nat := 18
def OP_JMP : Nat := 19
def OP_JMPF : Nat := 20
def OP_RET : Nat := 21
def OP_CALL : Nat := 22
def OP_DEF : Nat := 23
def OP_SET : Nat := 24
def OP_GET : Nat := 25
def OP_SETI : Nat := 26
def OP_GETI : Nat := 27
def OP_MAP : Nat := 28
/-- Modelled from the spec: the `CLU` (close upvalue) opcode named in §4.4 and
§6 of the spec; `src/parser.c` never emits it. -/
def OP_CLU : Nat := 29
/-- Modelled from the spec: the `ULD` (upvalue load) opcode of §4.4/§6;
`src/parser.c` never emits it. -/
def OP_ULD : Nat := 30
/-- Modelled from the spec: the `UST` (upvalue store) opcode of §4.4/§6;
`src/parser.c` never emits it. -/
def OP_UST : Nat := 31

/-- Runtime values that the compiler places into a chunk's constant pool
(`val_t`).  Numbers keep their lexeme (`strtod` is not modelled: no claim
depends on numeric values); strings are interned by content; function
constants carry the compiled function's fields. -/
inductive Val where
  | num (text : String)
  | str (s : String)
  | fn (name : String) (arity : Nat) (code : List Nat) (constants : List Val)

/-- A bytecode chunk (`chunk_t`): the emitted code bytes and the constant
pool.  The parallel line/column arrays only feed runtime error messages and
are not modelled. -/
structure Chunk where
  code : List Nat := []
  constants : List Val := []
deriving Inhabited

/-- A finished function object (`fun_t`). -/
structure Fun where
  name : String
  arity : Nat
  chunk : Chunk

/-- A local-variable record (`local_t`): the declaring token and its scope
depth (`-1` while uninitialized). -/
structure Local where
  name : Tok
  depth : Int
deriving DecidableEq, Repr

/-- Function-type tag (`funtype_t`). -/
inductive FunType where
  | function | script
deriving DecidableEq, Inhabited

/-- A compiler frame (`compiler_t`), with the function-under-construction's
fields (`fun_t`: name, arity, chunk) inlined.  The C `enclosing` pointer is
represented by the position in `PState.compilers` (head = innermost). -/
structure Compiler where
  fname : String
  arity : Nat
  chunk : Chunk
  type : FunType
  locals : List Local
  scopeDepth : Int
deriving Inhabited

/-- The parser state (`parser_t`), plus the token stream standing in for the
lexer and the list of diagnostics reported so far. -/
structure PState where
  toks : List Tok
  current : Tok
  previous : Tok
  compilers : List Compiler
  subExprs : Nat
  hadCall : Bool
  hadAssign : Bool
  hadError : Bool
  panicMode : Bool
  diags : List String

/-- `errorAt`: if `panicMode` is set the report is suppressed; otherwise the
diagnostic is printed (modelled: appended to `diags`), `panicMode` is engaged
and the sticky `hadError` flag is set. -/
def errorAt (st : PState) (msg : String) : PState :=
  if st.panicMode then st
  else { st with panicMode := true, hadError := true, diags := st.diags ++ [msg] }

/-- `error`: report at the previous token (the token only affects the printed
position, which is not modelled). -/
def error (st : PState) (msg : String) : PState := errorAt st msg

/-- `errorAtCurrent`: report at the current token. -/
def errorAtCurrent (st : PState) (msg : String) : PState := errorAt st msg

/-- The scan loop inside `advance`: pull tokens until a non-`ERROR` token,
reporting each `ERROR` token's lexeme as a diagnostic. -/
def skipErrors : List Tok → PState → PState
  | [], st => { st with current := eofTok, toks := [] }
  | t :: ts, st =>
    if t.type = .err then skipErrors ts (errorAtCurrent st t.text)
    else { st with current := t, toks := ts }

/-- `advance`: shift `current` into `previous` and scan the next token. -/
def advance (st : PState) : PState :=
  skipErrors st.toks { st with previous := st.current }

/-- `consume`: require the current token's kind, else report `msg`. -/
def consume (st : PState) (t : TokType) (msg : String) : PState :=
  if st.current.type = t then advance st else errorAtCurrent st msg

/-- `consumes`: require one of two kinds, else report `msg`. -/
def consumes (st : PState) (t1 t2 : TokType) (msg : String) : PState :=
  if st.current.type = t1 ∨ st.current.type = t2 then advance st
  else errorAtCurrent st msg

/-- `checkPrev`. -/
def checkPrev (st : PState) (t : TokType) : Bool := st.previous.type = t

/-- `check`. -/
def check (st : PState) (t : TokType) : Bool := st.current.type = t

/-- `match` (renamed: `match` is a Lean keyword): conditional consume,
returning whether it consumed. -/
def matchTok (st : PState) (t : TokType) : Bool × PState :=
  if check st t then (true, advance st) else (false, st)

/-- The current (innermost) compiler frame, `parser->compiler`. -/
def curComp (st : PState) : Compiler := st.compilers.headD default

/-- Update the current compiler frame in place. -/
def withComp (st : PState) (f : Compiler → Compiler) : PState :=
  { st with compilers := match st.compilers with | [] => [] | c :: r => f c :: r }

/-- `currentChunk`: the chunk of the function under construction. -/
def currentChunk (st : PState) : Chunk := (curComp st).chunk

/-- The current chunk's code bytes (`currentChunk(parser)->code`, whose length
is `count`). -/
def curCode (st : PState) : List Nat := (currentChunk st).code

/-- `emitByte` via `chunk_emit`: append one byte to the current chunk
(`uint8_t` parameter: reduced `% 256`). -/
def emitByte (st : PState) (b : Nat) : PState :=
  withComp st fun c =>
    { c with chunk := { c.chunk with code := c.chunk.code ++ [b % 256] } }

/-- `emitBytes`. -/
def emitBytes (st : PState) (b1 b2 : Nat) : PState :=
  emitByte (emitByte st b1) b2

/-- `emitJump`: the opcode plus two placeholder bytes; returns the offset of
the first placeholder (`chunk->count - 2`). -/
def emitJump (st : PState) (instruction : Nat) : Nat × PState :=
  let st := emitByte st instruction
  let st := emitBytes st 0 0
  ((curCode st).length - 2, st)

/-- `emitReturn`: the `NIL; RET` epilogue. -/
def emitReturn (st : PState) : PState :=
  emitByte (emitByte st OP_NIL) OP_RET

/-- Modelled from the spec: `arr_add` (the value-array helper, not under
`src/`) — §4.4 "Constants": `makeConstant` appends the value and returns the
index, so `arr_add` appends and returns the previous count. -/
def arr_add (cs : List Val) (v : Val) : Nat × List Val :=
  (cs.length, cs ++ [v])

/-- `makeConstant`: add the value to the current chunk's constant pool; an
index above `UINT8_MAX` is a diagnostic and yields index 0. -/
def makeConstant (st : PState) (v : Val) : Nat × PState :=
  let p := arr_add (currentChunk st).constants v
  let st := withComp st fun c =>
    { c with chunk := { c.chunk with constants := p.2 } }
  if p.1 > 255 then (0, error st "Too many constants in one chunk.")
  else (p.1, st)

/-- `emitSmart`: opcode plus operand byte (`(uint8_t)arg`). -/
def emitSmart (st : PState) (op : Nat) (arg : Nat) : PState :=
  emitBytes st op (arg % 256)

/-- `emitConstant`. -/
def emitConstant (st : PState) (v : Val) : PState :=
  let p := makeConstant st v
  emitSmart p.2 OP_CONST p.1

/-- `patchJump(offset)`: compute `jump = count - offset - 2`; report "Too much
code to jump over." when it exceeds `UINT16_MAX`; then (unconditionally, as in
the C code) store the low 16 bits big-endian into the two placeholder
bytes. -/
def patchJump (st : PState) (offset : Nat) : PState :=
  let jump : Int := ((curCode st).length : Int) - (offset : Int) - 2
  let st := if jump > 65535 then error st "Too much code to jump over." else st
  let jn := jump.toNat
  withComp st fun c =>
    { c with chunk := { c.chunk with
        code := (c.chunk.code.set offset ((jn / 256) % 256)).set (offset + 1) (jn % 256) } }

/-- `initCompiler`: push a fresh frame; functions (not scripts) take their
name from the previous token; slot 0 is reserved with depth 0 and an empty
lexeme. -/
def initCompiler (st : PState) (type : FunType) : PState :=
  let fname := if type ≠ .script then st.previous.text else ""
  let comp : Compiler :=
    { fname := fname, arity := 0, chunk := {}, type := type,
      locals := [{ name := { type := .eof, text := "", line := 0 }, depth := 0 }],
      scopeDepth := 0 }
  { st with compilers := comp :: st.compilers }

/-- `endCompiler`: emit the `NIL; RET` epilogue, package the function under
construction and pop the frame. -/
def endCompiler (st : PState) : Fun × PState :=
  let st := emitReturn st
  let c := curComp st
  ({ name := c.fname, arity := c.arity, chunk := c.chunk },
   { st with compilers := st.compilers.tail })

/-- `beginScope`. -/
def beginScope (st : PState) : PState :=
  withComp st fun c => { c with scopeDepth := c.scopeDepth + 1 }

/-- The `endScope` pop loop, acting on the reversed locals list (top of the
stack first): drop every local whose depth exceeds the new scope depth,
counting the pops. -/
def endScopeLoop : List Local → Int → List Local × Nat
  | [], _ => ([], 0)
  | l :: ls, d =>
    if l.depth > d then
      let p := endScopeLoop ls d
      (p.1, p.2 + 1)
    else (l :: ls, 0)

/-- `endScope`: decrement the scope depth, then pop every local deeper than
the new depth, emitting one `POP` byte per popped local. -/
def endScope (st : PState) : PState :=
  let d := (curComp st).scopeDepth - 1
  let p := endScopeLoop (curComp st).locals.reverse d
  withComp st fun c =>
    { c with
      scopeDepth := d,
      locals := (p.1).reverse,
      chunk := { c.chunk with code := c.chunk.code ++ List.replicate p.2 OP_POP } }

/-- `identifierConstant`: intern the identifier's lexeme (`str_copy`, not
under `src/`, is modelled as interning by content) and add it to the constant
pool. -/
def identifierConstant (st : PState) (name : Tok) : Nat × PState :=
  makeConstant st (Val.str name.text)

/-- `identifiersEqual`: length check plus `memcmp` on the lexemes. -/
def identifiersEqual (a b : Tok) : Bool := a.text = b.text

/-- The scan of `resolveLocal`, searching the locals from the top (highest
slot index) downward; returns the slot index and the matched record. -/
def lookupLocal : List Local → Tok → Option (Nat × Local)
  | [], _ => none
  | l :: ls, name =>
    match lookupLocal ls name with
    | some p => some (p.1 + 1, p.2)
    | none => if identifiersEqual name l.name then some (0, l) else none

/-- `resolveLocal`: first match top-down wins; a match still marked with
depth `-1` additionally reports the own-initializer diagnostic; no match is
`-1`. -/
def resolveLocal (st : PState) (comp : Compiler) (name : Tok) : Int × PState :=
  match lookupLocal comp.locals name with
  | some p =>
    if p.2.depth = -1 then
      ((p.1 : Int), error st "Cannot read local variable in its own initializer.")
    else ((p.1 : Int), st)
  | none => (-1, st)

/-- `addLocal`: reject a 257th local, else append with depth `-1`. -/
def addLocal (st : PState) (name : Tok) : PState :=
  if (curComp st).locals.length = 256 then
    error st "Too many local variables in function."
  else withComp st fun c => { c with locals := c.locals ++ [{ name := name, depth := -1 }] }

/-- The duplicate scan of `declareVariable` on the reversed locals list:
stop at the first initialized local of a shallower scope; report whether a
same-name local occurs before that point. -/
def dupInScope : List Local → Tok → Int → Bool
  | [], _, _ => false
  | l :: ls, name, sd =>
    if l.depth ≠ -1 ∧ l.depth < sd then false
    else if identifiersEqual name l.name then true
    else dupInScope ls name sd

/-- `declareVariable`: globals (depth 0) are implicitly declared; otherwise
reject a duplicate in the current scope and add the local uninitialized. -/
def declareVariable (st : PState) : PState :=
  let c := curComp st
  if c.scopeDepth = 0 then st
  else
    let name := st.previous
    let st :=
      if dupInScope c.locals.reverse name c.scopeDepth then
        error st "Variable with this name already declared in this scope."
      else st
    addLocal st name

/-- `parseVariable`. -/
def parseVariable (st : PState) (errorMessage : String) : Nat × PState :=
  let st := consume st .ident errorMessage
  let st := declareVariable st
  if (curComp st).scopeDepth > 0 then (0, st)
  else identifierConstant st st.previous

/-- Set the depth of the last (topmost) local. -/
def setLastDepth : List Local → Int → List Local
  | [], _ => []
  | [l], d => [{ l with depth := d }]
  | l :: l' :: ls, d => l :: setLastDepth (l' :: ls) d

/-- `markInitialized`. -/
def markInitialized (st : PState) : PState :=
  if (curComp st).scopeDepth = 0 then st
  else withComp st fun c =>
    { c with locals := setLastDepth c.locals c.scopeDepth }

/-- `defineVariable`. -/
def defineVariable (st : PState) (global : Nat) : PState :=
  if (curComp st).scopeDepth > 0 then markInitialized st
  else emitSmart st OP_DEF global

/-- Precedence levels (`prec_t`), as numbers. -/
def PREC_NONE : Nat := 0
def PREC_ASSIGNMENT : Nat := 1
def PREC_OR : Nat := 2
def PREC_AND : Nat := 3
def PREC_EQUALITY : Nat := 4
def PREC_COMPARISON : Nat := 5
def PREC_TERM : Nat := 6
def PREC_FACTOR : Nat := 7
def PREC_UNARY : Nat := 8
def PREC_CALL : Nat := 9
def PREC_PRIMARY : Nat := 10

/-- The precedence column of the `rules` table (absent entries are
`PREC_NONE`, as C designated initializers zero them). -/
def rulePrec : TokType → Nat
  | .lparen | .lbracket | .dot => PREC_CALL
  | .minus | .plus => PREC_TERM
  | .slash | .star => PREC_FACTOR
  | .bangEq | .eqEq => PREC_EQUALITY
  | .greater | .greaterEq | .less | .lessEq => PREC_COMPARISON
  | .kand => PREC_AND
  | .kor => PREC_OR
  | _ => PREC_NONE

/-- Whether the `rules` table has a non-NULL first (expression-head) entry
for the token kind. -/
def canStart : TokType → Bool
  | .lparen | .lbracket | .minus | .bang | .knot | .ident | .str | .num
  | .kfalse | .ktrue | .knull | .kfunc => true
  | _ => false

/-- Whether the `rules` table has a non-NULL second (operator) entry. -/
def hasOpRule : TokType → Bool
  | .lparen | .lbracket | .dot | .minus | .plus | .slash | .star
  | .bangEq | .eqEq | .greater | .greaterEq | .less | .lessEq
  | .kand | .kor => true
  | _ => false

/-- `literal`: `false`/`null`/`true`, and the `fun` self-reference `LD 0`. -/
def literal (st : PState) : PState :=
  match st.previous.type with
  | .kfalse => emitByte st OP_FALSE
  | .knull => emitByte st OP_NIL
  | .ktrue => emitByte st OP_TRUE
  | .kfunc => emitBytes st OP_LD 0
  | _ => st

/-- `number`: emit a numeric constant (the lexeme stands for the `strtod`
value). -/
def number (st : PState) : PState :=
  emitConstant st (Val.num st.previous.text)

/-- Strip the surrounding quotes of a string lexeme (`start + 1`,
`length - 2`). -/
def stripQuotes (s : String) : String := (s.drop 1).dropRight 1

/-- `string`: emit a string constant from the unquoted lexeme. -/
def string (st : PState) : PState :=
  emitConstant st (Val.str (stripQuotes st.previous.text))

/-- The (getOp, setOp, operand) choice made at the head of `namedVariable`:
a local slot resolves to `LD`/`ST`, anything else is a global through an
interned identifier constant, `GLD`/`GST`. -/
def resolveVar (st : PState) (name : Tok) : (Nat × Nat × Nat) × PState :=
  let p := resolveLocal st (curComp st) name
  if p.1 ≠ -1 then ((OP_LD, OP_ST, p.1.toNat), p.2)
  else
    let q := identifierConstant p.2 name
    ((OP_GLD, OP_GST, q.1), q.2)

/-- The statement-boundary keyword set of `synchronize`. -/
def syncSet : TokType → Bool
  | .kclass | .kfunc | .kvar | .kfor | .kif | .kwhile | .kprint | .kreturn => true
  | _ => false

/-- The scan loop of `synchronize`. -/
def syncLoop : Nat → PState → PState
  | 0, st => st
  | fuel+1, st =>
    if st.current.type = .eof then st
    else if syncSet st.current.type then st
    else syncLoop fuel (advance st)

/-- `synchronize`: clear panic mode and skip to a statement boundary.  Each
step consumes a token, so `toks.length + 2` steps always suffice. -/
def synchronize (st : PState) : PState :=
  syncLoop (st.toks.length + 2) { st with panicMode := false }

/-- Package a compiled function as a constant-pool value (`VAL_OBJ`). -/
def funVal (f : Fun) : Val :=
  .fn f.name f.arity f.chunk.code f.chunk.constants

mutual

/-- `expression`. -/
def expression : Nat → PState → PState
  | 0, st => st
  | fuel+1, st => parsePrecedence fuel PREC_ASSIGNMENT st

termination_by structural fuel => fuel

/-- `parsePrecedence`: advance; run the expression-head rule of `previous`
(reporting "Expect expression." when the table has none); then the operator
loop; finally a pending `=` in assignment position is "Invalid assignment
target." (the `match` is short-circuited away when `canAssign` is false, as
in the C `&&`). -/
def parsePrecedence : Nat → Nat → PState → PState
  | 0, _, st => st
  | fuel+1, precedence, st =>
    let st := advance st
    if canStart st.previous.type = false then error st "Expect expression."
    else
      let canAssign := precedence ≤ PREC_ASSIGNMENT
      let st := runStart fuel st.previous.type canAssign st
      let st := { st with subExprs := st.subExprs + 1 }
      let st := opLoop fuel precedence canAssign st
      if canAssign then
        let p := matchTok st .eq
        if p.1 then error p.2 "Invalid assignment target." else p.2
      else st

termination_by structural fuel => fuel

/-- The infix loop of `parsePrecedence`: while the current token's table
precedence is at least the requested one — additionally breaking whenever the
current token begins on a later line than the previous one — note a pending
`(` as a call, advance, and run the operator rule. -/
def opLoop : Nat → Nat → Bool → PState → PState
  | 0, _, _, st => st
  | fuel+1, precedence, canAssign, st =>
    if precedence ≤ rulePrec st.current.type then
      if st.current.line > st.previous.line then st
      else
        let st := if check st .lparen then { st with hadCall := true } else st
        let st := advance st
        let st := runOp fuel st.previous.type canAssign st
        opLoop fuel precedence canAssign st
    else st

termination_by structural fuel => fuel

/-- Dispatch of the first (expression-head) column of the `rules` table. -/
def runStart : Nat → TokType → Bool → PState → PState
  | 0, _, _, st => st
  | fuel+1, t, canAssign, st =>
    match t with
    | .lparen => grouping fuel canAssign st
    | .lbracket => map fuel canAssign st
    | .minus | .bang | .knot => unary fuel canAssign st
    | .ident => variableRule fuel canAssign st
    | .str => string st
    | .num => number st
    | .kfalse | .ktrue | .knull | .kfunc => literal st
    | _ => st

termination_by structural fuel => fuel

/-- Dispatch of the second (operator) column of the `rules` table. -/
def runOp : Nat → TokType → Bool → PState → PState
  | 0, _, _, st => st
  | fuel+1, t, canAssign, st =>
    match t with
    | .lparen => call fuel canAssign st
    | .lbracket => index_ fuel canAssign st
    | .dot => dot fuel canAssign st
    | .minus | .plus | .slash | .star | .bangEq | .eqEq
    | .greater | .greaterEq | .less | .lessEq => binary fuel canAssign st
    | .kand => and_ fuel canAssign st
    | .kor => or_ fuel canAssign st
    | _ => st

termination_by structural fuel => fuel

/-- `grouping`. -/
def grouping : Nat → Bool → PState → PState
  | 0, _, st => st
  | fuel+1, _, st => consume (expression fuel st) .rparen "Expect ')' after expression."

termination_by structural fuel => fuel

/-- `unary`: parse the operand at `PREC_UNARY`, then emit `NOT` or `NEG`. -/
def unary : Nat → Bool → PState → PState
  | 0, _, st => st
  | fuel+1, _, st =>
    let operatorType := st.previous.type
    let st := parsePrecedence fuel PREC_UNARY st
    match operatorType with
    | .knot | .bang => emitByte st OP_NOT
    | .minus => emitByte st OP_NEG
    | _ => st

termination_by structural fuel => fuel

/-- `binary`: parse the right operand one level above the operator's table
precedence, then emit the operator opcode(s); `!=`, `>`, `>=` lower to a
comparison followed by `NOT`. -/
def binary : Nat → Bool → PState → PState
  | 0, _, st => st
  | fuel+1, _, st =>
    let operatorType := st.previous.type
    let st := parsePrecedence fuel (rulePrec operatorType + 1) st
    match operatorType with
    | .eqEq => emitByte st OP_EQ
    | .less => emitByte st OP_LT
    | .lessEq => emitByte st OP_LE
    | .bangEq => emitBytes st OP_EQ OP_NOT
    | .greater => emitBytes st OP_LE OP_NOT
    | .greaterEq => emitBytes st OP_LT OP_NOT
    | .plus => emitByte st OP_ADD
    | .minus => emitByte st OP_SUB
    | .star => emitByte st OP_MUL
    | .slash => emitByte st OP_DIV
    | _ => st

termination_by structural fuel => fuel

/-- `call`: argument list, then `CALL argc`. -/
def call : Nat → Bool → PState → PState
  | 0, _, st => st
  | fuel+1, _, st =>
    let p := argumentList fuel st
    emitBytes p.2 OP_CALL p.1

termination_by structural fuel => fuel

/-- `argumentList`. -/
def argumentList : Nat → PState → Nat × PState
  | 0, st => (0, st)
  | fuel+1, st =>
    let p : Nat × PState :=
      if check st .rparen = false then argLoop fuel 0 st else (0, st)
    (p.1, consume p.2 .rparen "Expect ')' after arguments.")

termination_by structural fuel => fuel

/-- The do-while body of `argumentList`: parse an expression, bump the
`uint8_t` counter, report the diagnostic exactly when it reaches 32, continue
on a comma. -/
def argLoop : Nat → Nat → PState → Nat × PState
  | 0, argCount, st => (argCount, st)
  | fuel+1, argCount, st =>
    let st := expression fuel st
    let argCount := (argCount + 1) % 256
    let st :=
      if argCount = 32 then error st "Cannot have more than 32 arguments." else st
    let p := matchTok st .comma
    if p.1 then argLoop fuel argCount p.2 else (argCount, p.2)

termination_by structural fuel => fuel

/-- `and_`: short-circuit via a forward `JMPF`. -/
def and_ : Nat → Bool → PState → PState
  | 0, _, st => st
  | fuel+1, _, st =>
    let p := emitJump st OP_JMPF
    let st := emitByte p.2 OP_POP
    let st := parsePrecedence fuel PREC_AND st
    patchJump st p.1

termination_by structural fuel => fuel

/-- `or_`: `JMPF` over a `JMP`, then the right side. -/
def or_ : Nat → Bool → PState → PState
  | 0, _, st => st
  | fuel+1, _, st =>
    let pElse := emitJump st OP_JMPF
    let pEnd := emitJump pElse.2 OP_JMP
    let st := patchJump pEnd.2 pElse.1
    let st := emitByte st OP_POP
    let st := parsePrecedence fuel PREC_OR st
    patchJump st pEnd.1

termination_by structural fuel => fuel

/-- `dot`: member get/set. -/
def dot : Nat → Bool → PState → PState
  | 0, _, st => st
  | fuel+1, canAssign, st =>
    let st := consume st .ident "Expect member name."
    let p := identifierConstant st st.previous
    if canAssign then
      let q := matchTok p.2 .eq
      if q.1 then emitBytes (expression fuel q.2) OP_SET p.1
      else emitBytes q.2 OP_GET p.1
    else emitBytes p.2 OP_GET p.1

termination_by structural fuel => fuel

/-- `index_`: subscript get/set; a set marks `hadAssign`. -/
def index_ : Nat → Bool → PState → PState
  | 0, _, st => st
  | fuel+1, canAssign, st =>
    let st := expression fuel st
    let st := consume st .rbracket "Expected closing ']'"
    if canAssign then
      let q := matchTok st .eq
      if q.1 then
        let st := expression fuel q.2
        let st := emitByte st OP_SETI
        { st with hadAssign := true }
      else emitByte q.2 OP_GETI
    else emitByte st OP_GETI

termination_by structural fuel => fuel

/-- `map`: `[ e, ... ]` literal; emits `MAP count`. -/
def map : Nat → Bool → PState → PState
  | 0, _, st => st
  | fuel+1, _, st =>
    let p : Nat × PState :=
      if check st .rbracket = false then mapLoop fuel 0 st else (0, st)
    let st := consume p.2 .rbracket "Expected closing ']'."
    emitBytes st OP_MAP p.1

termination_by structural fuel => fuel

/-- The do-while body of `map`. -/
def mapLoop : Nat → Nat → PState → Nat × PState
  | 0, count, st => (count, st)
  | fuel+1, count, st =>
    let st := expression fuel st
    let count := (count + 1) % 256
    let p := matchTok st .comma
    if p.1 then mapLoop fuel count p.2 else (count, p.2)

termination_by structural fuel => fuel

/-- `namedVariable`: choose the ops via `resolveVar`, then emit the set
variant (marking `hadAssign`) on `= expr` in assignment position, else the
get variant. -/
def namedVariable : Nat → Tok → Bool → PState → PState
  | 0, _, _, st => st
  | fuel+1, name, canAssign, st =>
    let r := resolveVar st name
    let getOp := (r.1).1
    let setOp := ((r.1).2).1
    let arg := ((r.1).2).2
    let st := r.2
    if canAssign then
      let q := matchTok st .eq
      if q.1 then
        let st := expression fuel q.2
        let st := emitSmart st setOp arg
        { st with hadAssign := true }
      else emitSmart q.2 getOp arg
    else emitSmart st getOp arg

termination_by structural fuel => fuel

/-- `variable` (renamed: `variable` is a Lean keyword). -/
def variableRule : Nat → Bool → PState → PState
  | 0, _, st => st
  | fuel+1, canAssign, st => namedVariable fuel st.previous canAssign st

termination_by structural fuel => fuel

/-- `block`. -/
def block : Nat → PState → PState
  | 0, st => st
  | fuel+1, st => consume (blockLoop fuel st) .rbrace "Expect '\x7d' after block."

termination_by structural fuel => fuel

/-- The declaration loop of `block`. -/
def blockLoop : Nat → PState → PState
  | 0, st => st
  | fuel+1, st =>
    if check st .rbrace = false ∧ check st .eof = false then
      blockLoop fuel (declaration fuel st)
    else st

termination_by structural fuel => fuel

/-- `inlineBlock`: a single declaration when it starts on the `then` line,
else declarations until `else`/EOF. -/
def inlineBlock : Nat → PState → PState
  | 0, st => st
  | fuel+1, st =>
    if st.current.line = st.previous.line ∧ check st .eof = false then
      declaration fuel st
    else inlineLoop fuel st

termination_by structural fuel => fuel

/-- The multi-line loop of `inlineBlock`. -/
def inlineLoop : Nat → PState → PState
  | 0, st => st
  | fuel+1, st =>
    if check st .kelse = false ∧ check st .eof = false then
      inlineLoop fuel (declaration fuel st)
    else st

termination_by structural fuel => fuel

/-- The declaration loop of the `else` branch of `statement`. -/
def elseLoop : Nat → PState → PState
  | 0, st => st
  | fuel+1, st =>
    if check st .kendif = false ∧ check st .eof = false then
      elseLoop fuel (declaration fuel st)
    else st

termination_by structural fuel => fuel

/-- `function`: fresh frame, scope, parameter list (diagnostic above 32
parameters), body up to `End`/`EndFunc`, then install the finished function
as a constant via `CONST`. -/
def function : Nat → FunType → PState → PState
  | 0, _, st => st
  | fuel+1, type, st =>
    let st := initCompiler st type
    let st := beginScope st
    let st := consume st .lparen "Expect '(' after function name."
    let st := if check st .rparen = false then paramLoop fuel st else st
    let st := consume st .rparen "Expect ')' after parameters."
    let st := bodyLoop fuel st
    let st := consumes st .kend .kendfunc "Expect 'End' or 'EndFunc' after function body."
    let p := endCompiler st
    let q := makeConstant p.2 (funVal p.1)
    emitSmart q.2 OP_CONST q.1

termination_by structural fuel => fuel

/-- The parameter do-while of `function`: bump the arity, report the
diagnostic when it exceeds 32, and declare/define the parameter. -/
def paramLoop : Nat → PState → PState
  | 0, st => st
  | fuel+1, st =>
    let st := withComp st fun c => { c with arity := c.arity + 1 }
    let arity := (curComp st).arity
    let st :=
      if arity > 32 then errorAtCurrent st "Cannot have more than 32 parameters." else st
    let p := parseVariable st "Expect parameter name."
    let st := defineVariable p.2 p.1
    let q := matchTok st .comma
    if q.1 then paramLoop fuel q.2 else q.2

termination_by structural fuel => fuel

/-- The body loop of `function`. -/
def bodyLoop : Nat → PState → PState
  | 0, st => st
  | fuel+1, st =>
    if check st .kend = false ∧ check st .kendfunc = false ∧ check st .eof = false then
      bodyLoop fuel (declaration fuel st)
    else st

termination_by structural fuel => fuel

/-- `funDeclaration`. -/
def funDeclaration : Nat → PState → PState
  | 0, st => st
  | fuel+1, st =>
    let p := parseVariable st "Expect function name."
    let st := markInitialized p.2
    let st := function fuel .function st
    defineVariable st p.1

termination_by structural fuel => fuel

/-- `varDeclaration`. -/
def varDeclaration : Nat → PState → PState
  | 0, st => st
  | fuel+1, st =>
    let p := parseVariable st "Expect variable name."
    let q := matchTok p.2 .eq
    let st := if q.1 then expression fuel q.2 else emitByte q.2 OP_NIL
    defineVariable st p.1


/-- `globalDeclaration`: a comma-separated run of `DEF`-emitting variable
declarations. -/
def globalDeclaration : Nat → PState → PState
  | 0, st => st
  | fuel+1, st =>
    let p := parseVariable st "Expect variable name."
    let q := matchTok p.2 .eq
    let st := if q.1 then expression fuel q.2 else emitByte q.2 OP_NIL
    let st := emitSmart st OP_DEF p.1
    let r := matchTok st .comma
    if r.1 then globalDeclaration fuel r.2 else r.2

termination_by structural fuel => fuel

/-- `expressionStatement`: reset the `subExprs`/`hadCall`/`hadAssign`
accounting, parse the expression, emit `POP`, and reject the statement with
"Unexpected expression syntax." when it had at most one subexpression and
neither a call nor an assignment. -/
def expressionStatement : Nat → PState → PState
  | 0, st => st
  | fuel+1, st =>
    let st := { st with hadCall := false, hadAssign := false, subExprs := 0 }
    let st := expression fuel st
    let st := emitByte st OP_POP
    if st.subExprs ≤ 1 ∧ st.hadCall = false ∧ st.hadAssign = false then
      error st "Unexpected expression syntax."
    else st


/-- `ifStatement`. -/
def ifStatement : Nat → PState → PState
  | 0, st => st
  | fuel+1, st =>
    let st := expression fuel st
    let st := consume st .kthen "Expect 'Then' after condition."
    let isInline := st.current.line = st.previous.line
    let pThen := emitJump st OP_JMPF
    let st := emitByte pThen.2 OP_POP
    let st := statement fuel st
    let pElse := emitJump st OP_JMP
    let st := patchJump pElse.2 pThen.1
    let st := emitByte st OP_POP
    let q := matchTok st .kelse
    let st := if q.1 then statement fuel q.2 else q.2
    let st := patchJump st pElse.1
    if isInline = false then
      consumes st .kend .kendif "Expect 'End' or 'EndIf' after block."
    else st

termination_by structural fuel => fuel

/-- `printStatement` (the `puts` statement): the expression list, then
`PRINT count` — unless the loop aborted on too many values. -/
def printStatement : Nat → PState → PState
  | 0, st => st
  | fuel+1, st =>
    let p := printLoop fuel 0 st
    match p.1 with
    | some count => emitBytes p.2 OP_PRINT count
    | none => p.2


/-- The do-while of `printStatement`: parse an expression, bump the counter;
above 32 report the diagnostic and return early (no `PRINT` is emitted). -/
def printLoop : Nat → Nat → PState → Option Nat × PState
  | 0, _, st => (none, st)
  | fuel+1, count, st =>
    let st := expression fuel st
    let count := count + 1
    if count > 32 then (none, error st "Too many values in 'print' statement.")
    else
      let p := matchTok st .comma
      if p.1 then printLoop fuel count p.2 else (some count, p.2)

termination_by structural fuel => fuel

/-- `returnStatement`. -/
def returnStatement : Nat → PState → PState
  | 0, st => st
  | fuel+1, st =>
    if (curComp st).type = .script then error st "Cannot return from top-level code."
    else if check st .rbrace ∨ check st .kend ∨ check st .kendfunc
        ∨ st.current.line > st.previous.line then
      emitReturn st
    else emitByte (expression fuel st) OP_RET


/-- `exitStatement`: parses an optional argument but emits no opcode
(the `OP_EXIT` emission is commented out in the source). -/
def exitStatement : Nat → PState → PState
  | 0, st => st
  | fuel+1, st =>
    let hadParen := check st .lparen
    let st :=
      if st.current.line = st.previous.line ∧ check st .rparen = false then
        expression fuel st
      else emitByte st OP_NIL
    if hadParen then consume st .rparen "Expected ')' closing." else st


/-- `declaration`: `Func`/`var`/`Global` declarations or a statement, then
panic-mode synchronization. -/
def declaration : Nat → PState → PState
  | 0, st => st
  | fuel+1, st =>
    let st :=
      let p := matchTok st .kfunc
      if p.1 then funDeclaration fuel p.2
      else
        let q := matchTok p.2 .kvar
        if q.1 then varDeclaration fuel q.2
        else
          let r := matchTok q.2 .kglobal
          if r.1 then globalDeclaration fuel r.2
          else statement fuel r.2
    if st.panicMode then synchronize st else st

termination_by structural fuel => fuel

/-- `statement`. -/
def statement : Nat → PState → PState
  | 0, st => st
  | fuel+1, st =>
    let p := matchTok st .kprint
    if p.1 then printStatement fuel p.2
    else
      let q := matchTok p.2 .kif
      if q.1 then ifStatement fuel q.2
      else
        let r := matchTok q.2 .kreturn
        if r.1 then returnStatement fuel r.2
        else
          let s := matchTok r.2 .kexit
          if s.1 then exitStatement fuel s.2
          else
            let t := matchTok s.2 .lbrace
            if t.1 then endScope (block fuel (beginScope t.2))
            else if checkPrev t.2 .kthen then endScope (inlineBlock fuel (beginScope t.2))
            else if checkPrev t.2 .kelse then endScope (elseLoop fuel (beginScope t.2))
            else expressionStatement fuel t.2

termination_by structural fuel => fuel
end

/-- The top-level parse loop of `compile`. -/
def compileLoop : Nat → PState → PState
  | 0, st => st
  | fuel+1, st =>
    let p := matchTok st .eof
    if p.1 then p.2 else compileLoop fuel (declaration fuel p.2)

/-- The freshly initialized parser state over a token stream (the fields the
C code leaves uninitialized before first use are zeroed here). -/
def initState (toks : List Tok) : PState :=
  { toks := toks, current := eofTok, previous := eofTok, compilers := [],
    subExprs := 0, hadCall := false, hadAssign := false,
    hadError := false, panicMode := false, diags := [] }

/-- `compile` up to its final line: run the parser and return the finished
top-level function together with the final parser state. -/
def compileRun (fuel : Nat) (toks : List Tok) : Fun × PState :=
  let st := initState toks
  let st := initCompiler st .script
  let st := advance st
  let st := compileLoop fuel st
  endCompiler st

/-- `compile`: the sole entry point — the compiled script function, or `none`
when the sticky `hadError` flag ended up set. -/
def compile (fuel : Nat) (toks : List Tok) : Option Fun :=
  let p := compileRun fuel toks
  if p.2.hadError then none else some p.1

/-!
## The diagnostic invariant

`hadError` is sticky and is set exactly by a successful (non-suppressed)
report, and `panicMode` implies `hadError`; hence at every reachable state
`hadError` holds iff at least one diagnostic has been reported.  `J` is that
invariant; the lemmas below push it through every compiler operation.
-/

/-- The diagnostic invariant: the sticky `hadError` flag is set iff some
diagnostic has been reported, and panic mode implies a prior error. -/
def J (st : PState) : Prop :=
  (st.hadError = true ↔ st.diags ≠ []) ∧ (st.panicMode = true → st.hadError = true)

theorem J_ext {st st' : PState} (he : st'.hadError = st.hadError)
    (hp : st'.panicMode = st.panicMode) (hd : st'.diags = st.diags)
    (h : J st) : J st' := by
  unfold J at *
  rw [he, hp, hd]
  exact h

theorem J_errorAt (st : PState) (m : String) (h : J st) : J (errorAt st m) := by
  unfold J errorAt at *
  split
  · exact h
  · simp

theorem J_error (st : PState) (m : String) (h : J st) : J (error st m) :=
  J_errorAt st m h

theorem J_errorAtCurrent (st : PState) (m : String) (h : J st) :
    J (errorAtCurrent st m) :=
  J_errorAt st m h

theorem J_skipErrors (ts : List Tok) (st : PState) (h : J st) :
    J (skipErrors ts st) := by
  induction ts generalizing st with
  | nil => exact J_ext rfl rfl rfl h
  | cons t ts ih =>
    unfold skipErrors
    split
    · exact ih _ (J_errorAtCurrent _ _ h)
    · exact J_ext rfl rfl rfl h

theorem J_advance (st : PState) (h : J st) : J (advance st) :=
  J_skipErrors _ _ (J_ext rfl rfl rfl h)

theorem J_consume (st : PState) (t : TokType) (m : String) (h : J st) :
    J (consume st t m) := by
  unfold consume
  split
  · exact J_advance _ h
  · exact J_errorAtCurrent _ _ h

theorem J_consumes (st : PState) (t1 t2 : TokType) (m : String) (h : J st) :
    J (consumes st t1 t2 m) := by
  unfold consumes
  split
  · exact J_advance _ h
  · exact J_errorAtCurrent _ _ h

theorem J_matchTok (st : PState) (t : TokType) (h : J st) :
    J (matchTok st t).2 := by
  unfold matchTok
  split
  · exact J_advance _ h
  · exact h

theorem J_withComp (st : PState) (f : Compiler → Compiler) (h : J st) :
    J (withComp st f) :=
  J_ext rfl rfl rfl h

theorem J_emitByte (st : PState) (b : Nat) (h : J st) : J (emitByte st b) :=
  J_withComp _ _ h

theorem J_emitBytes (st : PState) (b1 b2 : Nat) (h : J st) :
    J (emitBytes st b1 b2) :=
  J_emitByte _ _ (J_emitByte _ _ h)

theorem J_emitJump (st : PState) (op : Nat) (h : J st) : J (emitJump st op).2 :=
  J_emitBytes _ _ _ (J_emitByte _ _ h)

theorem J_emitReturn (st : PState) (h : J st) : J (emitReturn st) :=
  J_emitByte _ _ (J_emitByte _ _ h)

theorem J_makeConstant (st : PState) (v : Val) (h : J st) :
    J (makeConstant st v).2 := by
  unfold makeConstant
  dsimp only
  split
  · exact J_error _ _ (J_withComp _ _ h)
  · exact J_withComp _ _ h

theorem J_emitSmart (st : PState) (op arg : Nat) (h : J st) :
    J (emitSmart st op arg) :=
  J_emitBytes _ _ _ h

theorem J_emitConstant (st : PState) (v : Val) (h : J st) :
    J (emitConstant st v) :=
  J_emitSmart _ _ _ (J_makeConstant _ _ h)

theorem J_patchJump (st : PState) (offset : Nat) (h : J st) :
    J (patchJump st offset) := by
  unfold patchJump
  refine J_withComp _ _ ?_
  split
  · exact J_error _ _ h
  · exact h

theorem J_initCompiler (st : PState) (ty : FunType) (h : J st) :
    J (initCompiler st ty) :=
  J_ext rfl rfl rfl h

theorem J_endCompiler (st : PState) (h : J st) : J (endCompiler st).2 :=
  J_ext rfl rfl rfl (J_emitReturn _ h)

theorem J_beginScope (st : PState) (h : J st) : J (beginScope st) :=
  J_withComp _ _ h

theorem J_endScope (st : PState) (h : J st) : J (endScope st) :=
  J_withComp _ _ h

theorem J_identifierConstant (st : PState) (name : Tok) (h : J st) :
    J (identifierConstant st name).2 :=
  J_makeConstant _ _ h

theorem J_resolveLocal (st : PState) (c : Compiler) (name : Tok) (h : J st) :
    J (resolveLocal st c name).2 := by
  unfold resolveLocal
  split
  · split
    · exact J_error _ _ h
    · exact h
  · exact h

theorem J_addLocal (st : PState) (name : Tok) (h : J st) : J (addLocal st name) := by
  unfold addLocal
  split
  · exact J_error _ _ h
  · exact J_withComp _ _ h

theorem J_declareVariable (st : PState) (h : J st) : J (declareVariable st) := by
  unfold declareVariable
  dsimp only
  split
  · exact h
  · refine J_addLocal _ _ ?_
    split
    · exact J_error _ _ h
    · exact h

theorem J_parseVariable (st : PState) (m : String) (h : J st) :
    J (parseVariable st m).2 := by
  unfold parseVariable
  dsimp only
  split
  · exact J_declareVariable _ (J_consume _ _ _ h)
  · exact J_identifierConstant _ _ (J_declareVariable _ (J_consume _ _ _ h))

theorem J_markInitialized (st : PState) (h : J st) : J (markInitialized st) := by
  unfold markInitialized
  split
  · exact h
  · exact J_withComp _ _ h

theorem J_defineVariable (st : PState) (g : Nat) (h : J st) :
    J (defineVariable st g) := by
  unfold defineVariable
  split
  · exact J_markInitialized _ h
  · exact J_emitSmart _ _ _ h

theorem J_literal (st : PState) (h : J st) : J (literal st) := by
  unfold literal
  split
  · exact J_emitByte _ _ h
  · exact J_emitByte _ _ h
  · exact J_emitByte _ _ h
  · exact J_emitBytes _ _ _ h
  · exact h

theorem J_number (st : PState) (h : J st) : J (number st) :=
  J_emitConstant _ _ h

theorem J_string (st : PState) (h : J st) : J (string st) :=
  J_emitConstant _ _ h

theorem J_resolveVar (st : PState) (name : Tok) (h : J st) :
    J (resolveVar st name).2 := by
  unfold resolveVar
  dsimp only
  split
  · exact J_resolveLocal _ _ _ h
  · exact J_identifierConstant _ _ (J_resolveLocal _ _ _ h)

theorem J_syncLoop (fuel : Nat) (st : PState) (h : J st) : J (syncLoop fuel st) := by
  induction fuel generalizing st with
  | zero => exact h
  | succ fuel ih =>
    unfold syncLoop
    split
    · exact h
    · split
      · exact h
      · exact ih _ (J_advance _ h)

theorem J_synchronize (st : PState) (h : J st) : J (synchronize st) := by
  refine J_syncLoop _ _ ?_
  unfold J at *
  constructor
  · exact h.1
  · intro hp
    cases hp

theorem J_setSubExprs (st : PState) (n : Nat) (h : J st) :
    J { st with subExprs := n } :=
  J_ext rfl rfl rfl h

theorem J_setHadCall (st : PState) (b : Bool) (h : J st) :
    J { st with hadCall := b } :=
  J_ext rfl rfl rfl h

theorem J_setHadAssign (st : PState) (b : Bool) (h : J st) :
    J { st with hadAssign := b } :=
  J_ext rfl rfl rfl h

theorem J_resetExprFlags (st : PState) (h : J st) :
    J { st with hadCall := false, hadAssign := false, subExprs := 0 } :=
  J_ext rfl rfl rfl h

mutual

theorem J_expression : ∀ fuel st, J st → J (expression fuel st)
  | 0, _, h => h
  | fuel+1, st, h => by
    simp only [expression]
    exact J_parsePrecedence fuel _ _ h

theorem J_parsePrecedence : ∀ fuel p st, J st → J (parsePrecedence fuel p st)
  | 0, _, _, h => h
  | fuel+1, _, st, h => by
    simp only [parsePrecedence]
    repeat' split
    all_goals first
    | exact J_error _ _ (J_advance _ h)
    | exact J_error _ _ (J_matchTok _ _ (J_opLoop fuel _ _ _
        (J_setSubExprs _ _ (J_runStart fuel _ _ _ (J_advance _ h)))))
    | exact J_matchTok _ _ (J_opLoop fuel _ _ _
        (J_setSubExprs _ _ (J_runStart fuel _ _ _ (J_advance _ h))))
    | exact J_opLoop fuel _ _ _
        (J_setSubExprs _ _ (J_runStart fuel _ _ _ (J_advance _ h)))

theorem J_opLoop : ∀ fuel p c st, J st → J (opLoop fuel p c st)
  | 0, _, _, _, h => h
  | fuel+1, _, _, st, h => by
    simp only [opLoop]
    repeat' split
    all_goals first
    | exact h
    | exact J_opLoop fuel _ _ _ (J_runOp fuel _ _ _ (J_advance _ (J_setHadCall _ _ h)))

theorem J_runStart : ∀ fuel t c st, J st → J (runStart fuel t c st)
  | 0, _, _, _, h => h
  | fuel+1, t, _, st, h => by
    cases t
    all_goals first
    | exact h
    | exact J_grouping fuel _ _ h
    | exact J_map fuel _ _ h
    | exact J_unary fuel _ _ h
    | exact J_variableRule fuel _ _ h
    | exact J_string _ h
    | exact J_number _ h
    | exact J_literal _ h

theorem J_runOp : ∀ fuel t c st, J st → J (runOp fuel t c st)
  | 0, _, _, _, h => h
  | fuel+1, t, _, st, h => by
    cases t
    all_goals first
    | exact h
    | exact J_call fuel _ _ h
    | exact J_index fuel _ _ h
    | exact J_dot fuel _ _ h
    | exact J_binary fuel _ _ h
    | exact J_and fuel _ _ h
    | exact J_or fuel _ _ h

theorem J_grouping : ∀ fuel c st, J st → J (grouping fuel c st)
  | 0, _, _, h => h
  | fuel+1, _, st, h => by
    simp only [grouping]
    exact J_consume _ _ _ (J_expression fuel _ h)

theorem J_unary : ∀ fuel c st, J st → J (unary fuel c st)
  | 0, _, _, h => h
  | fuel+1, _, st, h => by
    simp only [unary]
    repeat' split
    all_goals first
    | exact J_emitByte _ _ (J_parsePrecedence fuel _ _ h)
    | exact J_parsePrecedence fuel _ _ h

theorem J_binary : ∀ fuel c st, J st → J (binary fuel c st)
  | 0, _, _, h => h
  | fuel+1, _, st, h => by
    simp only [binary]
    repeat' split
    all_goals first
    | exact J_emitByte _ _ (J_parsePrecedence fuel _ _ h)
    | exact J_emitBytes _ _ _ (J_parsePrecedence fuel _ _ h)
    | exact J_parsePrecedence fuel _ _ h

theorem J_call : ∀ fuel c st, J st → J (call fuel c st)
  | 0, _, _, h => h
  | fuel+1, _, st, h => by
    simp only [call]
    exact J_emitBytes _ _ _ (J_argumentList fuel _ h)

theorem J_argumentList : ∀ fuel st, J st → J (argumentList fuel st).2
  | 0, _, h => h
  | fuel+1, st, h => by
    simp only [argumentList]
    repeat' split
    all_goals first
    | exact J_consume _ _ _ (J_argLoop fuel _ _ h)
    | exact J_consume _ _ _ h

theorem J_argLoop : ∀ fuel n st, J st → J (argLoop fuel n st).2
  | 0, _, _, h => h
  | fuel+1, _, st, h => by
    simp only [argLoop]
    repeat' split
    all_goals first
    | exact J_argLoop fuel _ _ (J_matchTok _ _ (J_error _ _ (J_expression fuel _ h)))
    | exact J_argLoop fuel _ _ (J_matchTok _ _ (J_expression fuel _ h))
    | exact J_matchTok _ _ (J_error _ _ (J_expression fuel _ h))
    | exact J_matchTok _ _ (J_expression fuel _ h)

theorem J_and : ∀ fuel c st, J st → J (and_ fuel c st)
  | 0, _, _, h => h
  | fuel+1, _, st, h => by
    simp only [and_]
    exact J_patchJump _ _ (J_parsePrecedence fuel _ _ (J_emitByte _ _ (J_emitJump _ _ h)))

theorem J_or : ∀ fuel c st, J st → J (or_ fuel c st)
  | 0, _, _, h => h
  | fuel+1, _, st, h => by
    simp only [or_]
    exact J_patchJump _ _ (J_parsePrecedence fuel _ _ (J_emitByte _ _
      (J_patchJump _ _ (J_emitJump _ _ (J_emitJump _ _ h)))))

theorem J_dot : ∀ fuel c st, J st → J (dot fuel c st)
  | 0, _, _, h => h
  | fuel+1, _, st, h => by
    simp only [dot]
    repeat' split
    all_goals first
    | exact J_emitBytes _ _ _ (J_expression fuel _ (J_matchTok _ _
        (J_identifierConstant _ _ (J_consume _ _ _ h))))
    | exact J_emitBytes _ _ _ (J_matchTok _ _ (J_identifierConstant _ _ (J_consume _ _ _ h)))
    | exact J_emitBytes _ _ _ (J_identifierConstant _ _ (J_consume _ _ _ h))

theorem J_index : ∀ fuel c st, J st → J (index_ fuel c st)
  | 0, _, _, h => h
  | fuel+1, _, st, h => by
    simp only [index_]
    repeat' split
    all_goals first
    | exact J_setHadAssign _ _ (J_emitByte _ _ (J_expression fuel _ (J_matchTok _ _
        (J_consume _ _ _ (J_expression fuel _ h)))))
    | exact J_emitByte _ _ (J_matchTok _ _ (J_consume _ _ _ (J_expression fuel _ h)))
    | exact J_emitByte _ _ (J_consume _ _ _ (J_expression fuel _ h))

theorem J_map : ∀ fuel c st, J st → J (map fuel c st)
  | 0, _, _, h => h
  | fuel+1, _, st, h => by
    simp only [map]
    repeat' split
    all_goals first
    | exact J_emitBytes _ _ _ (J_consume _ _ _ (J_mapLoop fuel _ _ h))
    | exact J_emitBytes _ _ _ (J_consume _ _ _ h)

theorem J_mapLoop : ∀ fuel n st, J st → J (mapLoop fuel n st).2
  | 0, _, _, h => h
  | fuel+1, _, st, h => by
    simp only [mapLoop]
    repeat' split
    all_goals first
    | exact J_mapLoop fuel _ _ (J_matchTok _ _ (J_expression fuel _ h))
    | exact J_matchTok _ _ (J_expression fuel _ h)

theorem J_namedVariable : ∀ fuel name c st, J st → J (namedVariable fuel name c st)
  | 0, _, _, _, h => h
  | fuel+1, _, _, st, h => by
    simp only [namedVariable]
    repeat' split
    all_goals first
    | exact J_setHadAssign _ _ (J_emitSmart _ _ _ (J_expression fuel _
        (J_matchTok _ _ (J_resolveVar _ _ h))))
    | exact J_emitSmart _ _ _ (J_matchTok _ _ (J_resolveVar _ _ h))
    | exact J_emitSmart _ _ _ (J_resolveVar _ _ h)

theorem J_variableRule : ∀ fuel c st, J st → J (variableRule fuel c st)
  | 0, _, _, h => h
  | fuel+1, _, st, h => by
    simp only [variableRule]
    exact J_namedVariable fuel _ _ _ h

theorem J_block : ∀ fuel st, J st → J (block fuel st)
  | 0, _, h => h
  | fuel+1, st, h => by
    simp only [block]
    exact J_consume _ _ _ (J_blockLoop fuel _ h)

theorem J_blockLoop : ∀ fuel st, J st → J (blockLoop fuel st)
  | 0, _, h => h
  | fuel+1, st, h => by
    simp only [blockLoop]
    repeat' split
    all_goals first
    | exact h
    | exact J_blockLoop fuel _ (J_declaration fuel _ h)

theorem J_inlineBlock : ∀ fuel st, J st → J (inlineBlock fuel st)
  | 0, _, h => h
  | fuel+1, st, h => by
    simp only [inlineBlock]
    repeat' split
    all_goals first
    | exact J_declaration fuel _ h
    | exact J_inlineLoop fuel _ h

theorem J_inlineLoop : ∀ fuel st, J st → J (inlineLoop fuel st)
  | 0, _, h => h
  | fuel+1, st, h => by
    simp only [inlineLoop]
    repeat' split
    all_goals first
    | exact h
    | exact J_inlineLoop fuel _ (J_declaration fuel _ h)

theorem J_elseLoop : ∀ fuel st, J st → J (elseLoop fuel st)
  | 0, _, h => h
  | fuel+1, st, h => by
    simp only [elseLoop]
    repeat' split
    all_goals first
    | exact h
    | exact J_elseLoop fuel _ (J_declaration fuel _ h)

theorem J_function : ∀ fuel ty st, J st → J (function fuel ty st)
  | 0, _, _, h => h
  | fuel+1, _, st, h => by
    simp only [function]
    repeat' split
    all_goals first
    | exact J_emitSmart _ _ _ (J_makeConstant _ _ (J_endCompiler _ (J_consumes _ _ _ _
        (J_bodyLoop fuel _ (J_consume _ _ _ (J_paramLoop fuel _
        (J_consume _ _ _ (J_beginScope _ (J_initCompiler _ _ h)))))))))
    | exact J_emitSmart _ _ _ (J_makeConstant _ _ (J_endCompiler _ (J_consumes _ _ _ _
        (J_bodyLoop fuel _ (J_consume _ _ _
        (J_consume _ _ _ (J_beginScope _ (J_initCompiler _ _ h))))))))

theorem J_paramLoop : ∀ fuel st, J st → J (paramLoop fuel st)
  | 0, _, h => h
  | fuel+1, st, h => by
    simp only [paramLoop]
    repeat' split
    all_goals first
    | exact J_paramLoop fuel _ (J_matchTok _ _ (J_defineVariable _ _ (J_parseVariable _ _
        (J_errorAtCurrent _ _ (J_withComp _ _ h)))))
    | exact J_paramLoop fuel _ (J_matchTok _ _ (J_defineVariable _ _ (J_parseVariable _ _
        (J_withComp _ _ h))))
    | exact J_matchTok _ _ (J_defineVariable _ _ (J_parseVariable _ _
        (J_errorAtCurrent _ _ (J_withComp _ _ h))))
    | exact J_matchTok _ _ (J_defineVariable _ _ (J_parseVariable _ _ (J_withComp _ _ h)))

theorem J_bodyLoop : ∀ fuel st, J st → J (bodyLoop fuel st)
  | 0, _, h => h
  | fuel+1, st, h => by
    simp only [bodyLoop]
    repeat' split
    all_goals first
    | exact h
    | exact J_bodyLoop fuel _ (J_declaration fuel _ h)

theorem J_funDeclaration : ∀ fuel st, J st → J (funDeclaration fuel st)
  | 0, _, h => h
  | fuel+1, st, h => by
    simp only [funDeclaration]
    exact J_defineVariable _ _ (J_function fuel _ _ (J_markInitialized _ (J_parseVariable _ _ h)))

theorem J_varDeclaration : ∀ fuel st, J st → J (varDeclaration fuel st)
  | 0, _, h => h
  | fuel+1, st, h => by
    simp only [varDeclaration]
    repeat' split
    all_goals first
    | exact J_defineVariable _ _ (J_expression fuel _ (J_matchTok _ _ (J_parseVariable _ _ h)))
    | exact J_defineVariable _ _ (J_emitByte _ _ (J_matchTok _ _ (J_parseVariable _ _ h)))

theorem J_globalDeclaration : ∀ fuel st, J st → J (globalDeclaration fuel st)
  | 0, _, h => h
  | fuel+1, st, h => by
    simp only [globalDeclaration]
    repeat' split
    all_goals first
    | exact J_globalDeclaration fuel _ (J_matchTok _ _ (J_emitSmart _ _ _
        (J_expression fuel _ (J_matchTok _ _ (J_parseVariable _ _ h)))))
    | exact J_globalDeclaration fuel _ (J_matchTok _ _ (J_emitSmart _ _ _
        (J_emitByte _ _ (J_matchTok _ _ (J_parseVariable _ _ h)))))
    | exact J_matchTok _ _ (J_emitSmart _ _ _
        (J_expression fuel _ (J_matchTok _ _ (J_parseVariable _ _ h))))
    | exact J_matchTok _ _ (J_emitSmart _ _ _
        (J_emitByte _ _ (J_matchTok _ _ (J_parseVariable _ _ h))))

theorem J_expressionStatement : ∀ fuel st, J st → J (expressionStatement fuel st)
  | 0, _, h => h
  | fuel+1, st, h => by
    simp only [expressionStatement]
    repeat' split
    all_goals first
    | exact J_error _ _ (J_emitByte _ _ (J_expression fuel _ (J_resetExprFlags _ h)))
    | exact J_emitByte _ _ (J_expression fuel _ (J_resetExprFlags _ h))

theorem J_ifStatement : ∀ fuel st, J st → J (ifStatement fuel st)
  | 0, _, h => h
  | fuel+1, st, h => by
    simp only [ifStatement]
    repeat' split
    all_goals first
    | exact J_consumes _ _ _ _ (J_patchJump _ _ (J_statement fuel _ (J_matchTok _ _
        (J_emitByte _ _ (J_patchJump _ _ (J_emitJump _ _ (J_statement fuel _ (J_emitByte _ _
        (J_emitJump _ _ (J_consume _ _ _ (J_expression fuel _ h)))))))))))
    | exact J_consumes _ _ _ _ (J_patchJump _ _ (J_matchTok _ _
        (J_emitByte _ _ (J_patchJump _ _ (J_emitJump _ _ (J_statement fuel _ (J_emitByte _ _
        (J_emitJump _ _ (J_consume _ _ _ (J_expression fuel _ h))))))))))
    | exact J_patchJump _ _ (J_statement fuel _ (J_matchTok _ _
        (J_emitByte _ _ (J_patchJump _ _ (J_emitJump _ _ (J_statement fuel _ (J_emitByte _ _
        (J_emitJump _ _ (J_consume _ _ _ (J_expression fuel _ h))))))))))
    | exact J_patchJump _ _ (J_matchTok _ _
        (J_emitByte _ _ (J_patchJump _ _ (J_emitJump _ _ (J_statement fuel _ (J_emitByte _ _
        (J_emitJump _ _ (J_consume _ _ _ (J_expression fuel _ h)))))))))

theorem J_printStatement : ∀ fuel st, J st → J (printStatement fuel st)
  | 0, _, h => h
  | fuel+1, st, h => by
    simp only [printStatement]
    repeat' split
    all_goals first
    | exact J_emitBytes _ _ _ (J_printLoop fuel _ _ h)
    | exact J_printLoop fuel _ _ h

theorem J_printLoop : ∀ fuel n st, J st → J (printLoop fuel n st).2
  | 0, _, _, h => h
  | fuel+1, _, st, h => by
    simp only [printLoop]
    repeat' split
    all_goals first
    | exact J_error _ _ (J_expression fuel _ h)
    | exact J_printLoop fuel _ _ (J_matchTok _ _ (J_expression fuel _ h))
    | exact J_matchTok _ _ (J_expression fuel _ h)

theorem J_returnStatement : ∀ fuel st, J st → J (returnStatement fuel st)
  | 0, _, h => h
  | fuel+1, st, h => by
    simp only [returnStatement]
    repeat' split
    all_goals first
    | exact J_error _ _ h
    | exact J_emitReturn _ h
    | exact J_emitByte _ _ (J_expression fuel _ h)

theorem J_exitStatement : ∀ fuel st, J st → J (exitStatement fuel st)
  | 0, _, h => h
  | fuel+1, st, h => by
    simp only [exitStatement]
    repeat' split
    all_goals first
    | exact J_consume _ _ _ (J_expression fuel _ h)
    | exact J_consume _ _ _ (J_emitByte _ _ h)
    | exact J_expression fuel _ h
    | exact J_emitByte _ _ h

theorem J_declaration : ∀ fuel st, J st → J (declaration fuel st)
  | 0, _, h => h
  | fuel+1, st, h => by
    simp only [declaration]
    generalize h1 : matchTok st TokType.kfunc = p1
    have hJ1 : J p1.2 := h1 ▸ J_matchTok st _ h
    generalize h2 : matchTok p1.2 TokType.kvar = p2
    have hJ2 : J p2.2 := h2 ▸ J_matchTok _ _ hJ1
    generalize h3 : matchTok p2.2 TokType.kglobal = p3
    have hJ3 : J p3.2 := h3 ▸ J_matchTok _ _ hJ2
    repeat' split
    all_goals first
    | exact J_synchronize _ (J_funDeclaration fuel _ hJ1)
    | exact J_synchronize _ (J_varDeclaration fuel _ hJ2)
    | exact J_synchronize _ (J_globalDeclaration fuel _ hJ3)
    | exact J_synchronize _ (J_statement fuel _ hJ3)
    | exact J_funDeclaration fuel _ hJ1
    | exact J_varDeclaration fuel _ hJ2
    | exact J_globalDeclaration fuel _ hJ3
    | exact J_statement fuel _ hJ3

theorem J_statement : ∀ fuel st, J st → J (statement fuel st)
  | 0, _, h => h
  | fuel+1, st, h => by
    simp only [statement]
    generalize h1 : matchTok st TokType.kprint = p1
    have hJ1 : J p1.2 := h1 ▸ J_matchTok st _ h
    generalize h2 : matchTok p1.2 TokType.kif = p2
    have hJ2 : J p2.2 := h2 ▸ J_matchTok _ _ hJ1
    generalize h3 : matchTok p2.2 TokType.kreturn = p3
    have hJ3 : J p3.2 := h3 ▸ J_matchTok _ _ hJ2
    generalize h4 : matchTok p3.2 TokType.kexit = p4
    have hJ4 : J p4.2 := h4 ▸ J_matchTok _ _ hJ3
    generalize h5 : matchTok p4.2 TokType.lbrace = p5
    have hJ5 : J p5.2 := h5 ▸ J_matchTok _ _ hJ4
    repeat' split
    all_goals first
    | exact J_printStatement fuel _ hJ1
    | exact J_ifStatement fuel _ hJ2
    | exact J_returnStatement fuel _ hJ3
    | exact J_exitStatement fuel _ hJ4
    | exact J_endScope _ (J_block fuel _ (J_beginScope _ hJ5))
    | exact J_endScope _ (J_inlineBlock fuel _ (J_beginScope _ hJ5))
    | exact J_endScope _ (J_elseLoop fuel _ (J_beginScope _ hJ5))
    | exact J_expressionStatement fuel _ hJ5

end

theorem J_compileLoop (fuel : Nat) (st : PState) (h : J st) :
    J (compileLoop fuel st) := by
  induction fuel generalizing st with
  | zero => exact h
  | succ fuel ih =>
    unfold compileLoop
    try dsimp only
    split
    · exact J_matchTok _ _ h
    · exact ih _ (J_declaration fuel _ (J_matchTok _ _ h))

theorem J_initState (toks : List Tok) : J (initState toks) := by
  unfold J initState
  simp

theorem J_compileRun (fuel : Nat) (toks : List Tok) :
    J (compileRun fuel toks).2 := by
  unfold compileRun
  dsimp only
  exact J_endCompiler _ (J_compileLoop _ _ (J_advance _ (J_initCompiler _ _ (J_initState toks))))

end Au3

namespace Au3

/-!
## Helpers for concrete runs and claim statements
-/

/-- Shorthand token constructor. -/
def tok (t : TokType) (s : String) (l : Nat) : Tok := { type := t, text := s, line := l }

/-- The parser state over `toks` exactly as `compile` first sees it: fresh
script frame pushed, first token loaded. -/
def startState (toks : List Tok) : PState :=
  advance (initCompiler (initState toks) .script)

/-- The opcode bytes `binary` appends after compiling its right operand, per
operator token (the derived comparisons lower to a comparison plus `NOT`;
tokens without a `binary` rule contribute nothing). -/
def binOpBytes : TokType → List Nat
  | .eqEq => [OP_EQ]
  | .less => [OP_LT]
  | .lessEq => [OP_LE]
  | .bangEq => [OP_EQ, OP_NOT]
  | .greater => [OP_LE, OP_NOT]
  | .greaterEq => [OP_LT, OP_NOT]
  | .plus => [OP_ADD]
  | .minus => [OP_SUB]
  | .star => [OP_MUL]
  | .slash => [OP_DIV]
  | _ => []

/-- C6: the `binary` infix rule parses its right operand at one precedence
level above the operator's own table level (`rulePrec + 1`) and then emits
the operator opcode(s): `==`→`EQ`, `<`→`LT`, `<=`→`LE`, `+`→`ADD`, `-`→`SUB`,
`*`→`MUL`, `/`→`DIV`, and the derived comparisons lower to two opcodes:
`!=`→`EQ;NOT`, `>`→`LE;NOT`, `>=`→`LT;NOT`. -/
theorem c6_binary_lowering (fuel : Nat) (canAssign : Bool) (st : PState) :
    binary (fuel+1) canAssign st
      = (binOpBytes st.previous.type).foldl emitByte
          (parsePrecedence fuel (rulePrec st.previous.type + 1) st) := by
  cases h : st.previous.type <;>
    simp [binary, binOpBytes, h, emitBytes, List.foldl]

/-- C8: when name resolution in the current frame matches a local still at
depth `-1` (declared, not yet initialized), `resolveLocal` reports
"Cannot read local variable in its own initializer." (and still yields the
slot index). -/
theorem c8_own_initializer (st : PState) (c : Compiler) (name : Tok)
    (i : Nat) (l : Local)
    (hl : lookupLocal c.locals name = some (i, l)) (hd : l.depth = -1)
    (hp : st.panicMode = false) :
    (resolveLocal st c name).1 = (i : Int) ∧
    (resolveLocal st c name).2.diags
      = st.diags ++ ["Cannot read local variable in its own initializer."] ∧
    (resolveLocal st c name).2.hadError = true := by
  unfold resolveLocal
  rw [hl]
  dsimp only
  rw [if_pos hd]
  unfold error errorAt
  rw [if_neg (by simp [hp])]
  simp

/-- The locals array of a frame in which `var x = x` is mid-initialization:
slot 0 reserved, local `x` still at depth `-1`. -/
def c8Locals : List Local :=
  [{ name := tok .eof "" 0, depth := 0 }, { name := tok .ident "x" 1, depth := -1 }]

/-- A compiler frame holding `c8Locals`. -/
def c8Comp : Compiler :=
  { fname := "", arity := 0, chunk := {}, type := .script,
    locals := c8Locals, scopeDepth := 1 }

/-- Witness for C8 at a concrete frame: `var x = x` leaves local `x` at
depth `-1` when its own initializer reads it. -/
theorem c8_witness :
    (lookupLocal c8Locals (tok .ident "x" 1)
      = some (1, { name := tok .ident "x" 1, depth := -1 })) ∧
    ((resolveLocal (startState []) c8Comp (tok .ident "x" 1)).2.diags
      = [] ++ ["Cannot read local variable in its own initializer."]) :=
  ⟨by decide, (c8_own_initializer (startState []) c8Comp (tok .ident "x" 1) 1
      { name := tok .ident "x" 1, depth := -1 } (by decide) rfl rfl).2.1⟩

/-- C10: the infix loop of `parsePrecedence` terminates whenever the current
token begins on a later source line than the previous token — regardless of
the requested precedence, an operator on a later line is never consumed, so
an expression never continues across a line break. -/
theorem c10_line_break (fuel prec : Nat) (canAssign : Bool) (st : PState)
    (h : st.previous.line < st.current.line) :
    opLoop fuel prec canAssign st = st := by
  cases fuel with
  | zero => rfl
  | succ fuel =>
    unfold opLoop
    repeat' split
    all_goals rfl

/-- Witness for C10: a pending `+` on line 2 after a token on line 1 is not
consumed even at the lowest precedence. -/
theorem c10_witness :
    ((startState [tok .num "1" 1, tok .plus "+" 2, tok .num "2" 2]).previous.line <
      (startState [tok .num "1" 1, tok .plus "+" 2, tok .num "2" 2]).current.line) ∧
    opLoop 9 PREC_ASSIGNMENT true
        (startState [tok .num "1" 1, tok .plus "+" 2, tok .num "2" 2])
      = startState [tok .num "1" 1, tok .plus "+" 2, tok .num "2" 2] := by
  refine ⟨by decide, c10_line_break 9 PREC_ASSIGNMENT true _ (by decide)⟩

end Au3

namespace Au3

/-- C1: `compile` returns either a function or none; it returns `none`
exactly when at least one diagnostic was reported during the compilation
(equivalently, when the sticky `hadError` flag is set at the end), and when
no diagnostic occurred the constructed top-level function is returned. -/
theorem c1_compile_none_iff_diagnostic (fuel : Nat) (toks : List Tok) :
    (compile fuel toks = none ↔ (compileRun fuel toks).2.diags ≠ []) ∧
    (compile fuel toks = none ↔ (compileRun fuel toks).2.hadError = true) ∧
    ((compileRun fuel toks).2.diags = [] →
      compile fuel toks = some (compileRun fuel toks).1) := by
  have hJ := (J_compileRun fuel toks).1
  unfold compile
  cases hhe : (compileRun fuel toks).2.hadError with
  | false =>
    have hd : (compileRun fuel toks).2.diags = [] := by
      by_contra hne
      have := hJ.mpr hne
      rw [hhe] at this
      cases this
    simp [hhe, hd]
  | true =>
    have hd := hJ.mp hhe
    simp [hhe, hd]

/-- Witness for C1: the clean one-statement program `puts 1` reports no
diagnostic, and `compile` returns its function. -/
theorem c1_witness :
    compile 32 [tok .kprint "puts" 1, tok .num "1" 1, tok .eof "" 1]
      = some (compileRun 32 [tok .kprint "puts" 1, tok .num "1" 1, tok .eof "" 1]).1 :=
  (c1_compile_none_iff_diagnostic 32
    [tok .kprint "puts" 1, tok .num "1" 1, tok .eof "" 1]).2.2 rfl

end Au3

namespace Au3

/-- Emitting a byte appends it (reduced mod 256) to the current chunk when a
compiler frame exists. -/
theorem curCode_emitByte (st : PState) (b : Nat) (c : Compiler) (rest : List Compiler)
    (hc : st.compilers = c :: rest) :
    curCode (emitByte st b) = curCode st ++ [b % 256] := by
  unfold curCode currentChunk curComp emitByte withComp
  rw [hc]
  rfl

/-- A frame whose `chunk.code` is long enough that `patchJump 0` must compute
an over-limit forward jump: two placeholder bytes `255` followed by 65537
filler bytes. -/
def c3BigCode : List Nat := 255 :: 255 :: List.replicate 65537 7

/-- The frame carrying `c3BigCode`. -/
def c3Comp : Compiler :=
  { fname := "", arity := 0, chunk := { code := c3BigCode, constants := [] },
    type := .script, locals := [], scopeDepth := 0 }

/-- A parser state over that frame (no panic, no diagnostics yet). -/
def c3St : PState := { initState [] with compilers := [c3Comp] }

/-- Counterexample for C3: on an over-limit jump (`jump = 65537 > 65535`),
`patchJump` reports "Too much code to jump over." *and still overwrites* the
two placeholder bytes (255,255) with the truncated big-endian low 16 bits
(0,1) — contradicting the claim that on the over-limit error the placeholder
bytes are left alone. -/
theorem c3_counterexample :
    (curCode c3St).length - 0 - 2 = 65537 ∧
    List.take 2 (curCode c3St) = [255, 255] ∧
    (patchJump c3St 0).diags = ["Too much code to jump over."] ∧
    List.take 2 (curCode (patchJump c3St 0)) = [0, 1] := by
  have hcode : curCode c3St = c3BigCode := rfl
  have hlen : (curCode c3St).length = 65539 := by
    rw [hcode]
    unfold c3BigCode
    rw [List.length_cons, List.length_cons, List.length_replicate]
  refine ⟨by rw [hlen], ?_, ?_, ?_⟩
  · rw [hcode]
    rfl
  · unfold patchJump
    rw [hlen]
    norm_num
    rfl
  · unfold patchJump
    rw [hlen]
    norm_num
    rfl

/-- C3 (amended): `emitJump` writes the opcode plus two placeholder bytes and
returns the offset of the first placeholder; `patchJump(offset)` computes
`jump = count − offset − 2`, reports "Too much code to jump over." exactly
when `jump > 65535`, and in *every* case (over-limit included) writes the low
16 bits of `jump` big-endian into the two placeholder bytes. -/
theorem c3_amended (st : PState) (op offset jn : Nat)
    (c : Compiler) (rest : List Compiler) (hc : st.compilers = c :: rest)
    (hlen : (curCode st).length = offset + 2 + jn)
    (hp : st.panicMode = false) :
    (curCode (emitJump st op).2 = curCode st ++ [op % 256, 0, 0] ∧
     (emitJump st op).1 = (curCode st).length + 1) ∧
    curCode (patchJump st offset)
      = ((curCode st).set offset ((jn / 256) % 256)).set (offset + 1) (jn % 256) ∧
    (patchJump st offset).diags
      = (if 65535 < jn then st.diags ++ ["Too much code to jump over."] else st.diags) := by
  obtain ⟨tks, cur, prev, comps, sE, hC, hA, hE, pM, dg⟩ := st
  simp only at hc
  subst hc
  simp only at hp
  subst hp
  unfold curCode currentChunk curComp at hlen ⊢
  simp only [List.headD_cons] at hlen ⊢
  constructor
  · constructor
    · unfold emitJump emitBytes emitByte withComp
      simp [List.append_assoc]
    · unfold emitJump emitBytes emitByte withComp curCode currentChunk curComp
      simp [hlen]
  · have hj : ((c.chunk.code.length : Int) - (offset : Int) - 2) = (jn : Int) := by
      rw [hlen]
      push_cast
      ring
    unfold patchJump curCode currentChunk curComp
    simp only [List.headD_cons, hj]
    constructor
    · split
      · unfold error errorAt
        simp [withComp, Int.toNat_natCast]
      · simp [withComp, Int.toNat_natCast]
    · split
      · rename_i hgt
        have : 65535 < jn := by exact_mod_cast hgt
        unfold error errorAt
        simp [withComp, this]
      · rename_i hgt
        have : ¬ 65535 < jn := by
          intro hlt
          exact hgt (by exact_mod_cast hlt)
        simp [withComp, this]

/-- A small frame for the C3 witness: six code bytes. -/
def c3WitComp : Compiler :=
  { fname := "", arity := 0, chunk := { code := [20, 9, 9, 4, 4, 4], constants := [] },
    type := .script, locals := [], scopeDepth := 0 }

/-- The C3 witness state. -/
def c3WitSt : PState := { initState [] with compilers := [c3WitComp] }

/-- Witness for C3 (amended) at a concrete in-range jump: a 6-byte chunk,
offset 1, `jump = 3`: no diagnostic, bytes 1 and 2 become `0, 3`. -/
theorem c3_witness :
    (curCode (emitJump c3WitSt 20).2 = curCode c3WitSt ++ [20, 0, 0] ∧
     (emitJump c3WitSt 20).1 = (curCode c3WitSt).length + 1) ∧
    curCode (patchJump c3WitSt 1)
      = ((curCode c3WitSt).set 1 ((3 / 256) % 256)).set 2 (3 % 256) ∧
    (patchJump c3WitSt 1).diags
      = (if 65535 < 3 then c3WitSt.diags ++ ["Too much code to jump over."]
         else c3WitSt.diags) :=
  c3_amended c3WitSt 20 1 3 c3WitComp [] rfl (by decide) rfl

end Au3

namespace Au3

/-- Modelled from the spec: the outcome categories of the three-step name
resolution of §4.4 (the upvalue machinery belongs to the newer parser variant,
which is not under `src/`). -/
inductive SpecResolution where
  | localSlot (i : Nat)
  | upvalue
  | globalName
deriving DecidableEq

/-- Modelled from the spec: §4.4 name resolution — (1) scan the current
frame's locals top-down; (2) otherwise resolve recursively in the enclosing
frames, a hit there becoming an upvalue; (3) otherwise a global. -/
def specResolve : List Compiler → Tok → SpecResolution
  | [], _ => .globalName
  | c :: rest, name =>
    match lookupLocal c.locals name with
    | some p => .localSlot p.1
    | none =>
      match specResolve rest name with
      | .globalName => .globalName
      | _ => .upvalue

/-- Modelled from the spec: the get-opcode each resolution category selects
(`LD`, `ULD`, `GLD`). -/
def specGetOp : SpecResolution → Nat
  | .localSlot _ => OP_LD
  | .upvalue => OP_ULD
  | .globalName => OP_GLD

/-- The inner frame of the C2 counterexample: a function body whose locals
hold only the reserved slot 0. -/
def c2Inner : Compiler :=
  { fname := "g", arity := 0, chunk := {}, type := .function,
    locals := [{ name := tok .eof "" 0, depth := 0 }], scopeDepth := 1 }

/-- The enclosing frame of the C2 counterexample: it owns a local `x`. -/
def c2Outer : Compiler :=
  { fname := "", arity := 0, chunk := {}, type := .script,
    locals := [{ name := tok .eof "" 0, depth := 0 },
               { name := tok .ident "x" 1, depth := 1 }], scopeDepth := 1 }

/-- The C2 counterexample parser state: compiling inside `c2Inner`, with
`c2Outer` enclosing. -/
def c2St : PState := { initState [] with compilers := [c2Inner, c2Outer] }

/-- Counterexample for C2: the reference `x` misses the current frame's
locals but *is* a local of the enclosing frame, so the claimed three-step
resolution (spec §4.4) resolves it to an upvalue and selects `ULD`; the code's
`namedVariable`/`resolveVar` instead selects `GLD` — the compiler never
consults enclosing frames and has no upvalue step. -/
theorem c2_counterexample :
    lookupLocal c2Inner.locals (tok .ident "x" 2) = none ∧
    lookupLocal c2Outer.locals (tok .ident "x" 2)
      = some (1, { name := tok .ident "x" 1, depth := 1 }) ∧
    specGetOp (specResolve c2St.compilers (tok .ident "x" 2)) = OP_ULD ∧
    (resolveVar c2St (tok .ident "x" 2)).1.1 = OP_GLD ∧
    OP_GLD ≠ OP_ULD := by
  refine ⟨by decide, by decide, by decide, by decide, by decide⟩

/-- C2 (amended): name resolution is two-step — scan the current frame's
locals top-down and select `LD`/`ST` with the matched slot index; otherwise
fall straight through to a global: intern the identifier into the constant
pool and select `GLD`/`GST` with the new constant index.  Enclosing frames
are never consulted and no upvalue descriptors exist. -/
theorem c2_two_step_resolution (st : PState) (name : Tok)
    (c : Compiler) (rest : List Compiler) (hc : st.compilers = c :: rest) :
    (∀ i l, lookupLocal c.locals name = some (i, l) →
        (resolveVar st name).1 = (OP_LD, OP_ST, i)) ∧
    (lookupLocal c.locals name = none → c.chunk.constants.length ≤ 255 →
        (resolveVar st name).1 = (OP_GLD, OP_GST, c.chunk.constants.length) ∧
        (currentChunk (resolveVar st name).2).constants
          = c.chunk.constants ++ [Val.str name.text]) := by
  obtain ⟨tks, cur, prev, comps, sE, hC, hA, hE, pM, dg⟩ := st
  simp only at hc
  subst hc
  constructor
  · intro i l hl
    unfold resolveVar resolveLocal curComp
    simp only [List.headD_cons]
    rw [hl]
    dsimp only
    split
    · simp [Int.toNat_natCast]
    · simp [Int.toNat_natCast]
  · intro hn hlen
    unfold resolveVar resolveLocal curComp identifierConstant makeConstant arr_add
      currentChunk curComp
    simp only [List.headD_cons]
    rw [hn]
    dsimp only
    simp only [List.headD_cons]
    rw [if_neg (by simp)]
    rw [if_neg (by omega)]
    simp [withComp]

/-- Witness for C2 (amended), exercising both steps on concrete frames:
slot hit in the current frame picks `LD/ST` with the slot index; a miss picks
`GLD/GST` with the fresh constant index. -/
theorem c2_witness :
    ((resolveVar { initState [] with compilers := [c2Outer] }
        (tok .ident "x" 2)).1 = (OP_LD, OP_ST, 1)) ∧
    ((resolveVar c2St (tok .ident "x" 2)).1 = (OP_GLD, OP_GST, 0)) :=
  ⟨(c2_two_step_resolution { initState [] with compilers := [c2Outer] }
      (tok .ident "x" 2) c2Outer [] rfl).1 1
      { name := tok .ident "x" 1, depth := 1 } (by decide),
   ((c2_two_step_resolution c2St (tok .ident "x" 2) c2Inner [c2Outer] rfl).2
      (by decide) (by decide)).1⟩

end Au3

namespace Au3

/-- The `endScope` pop loop, on the reversed (top-first) locals: the pop count
is the length of the popped prefix (depth above the new scope depth), and the
survivors are the rest. -/
theorem endScopeLoop_spec (ls : List Local) (d : Int) :
    (endScopeLoop ls d).2 = (ls.takeWhile fun l => l.depth > d).length ∧
    (endScopeLoop ls d).1 = ls.dropWhile fun l => l.depth > d := by
  induction ls with
  | nil => simp [endScopeLoop]
  | cons l ls ih =>
    unfold endScopeLoop
    split
    · rename_i hgt
      simp only [List.takeWhile_cons, List.dropWhile_cons, decide_eq_true hgt]
      simp [ih.1, ih.2]
    · rename_i hgt
      have : decide (l.depth > d) = false := by
        simpa using hgt
      simp [List.takeWhile_cons, List.dropWhile_cons, this]

/-- C7 (amended): `endScope` decrements the scope depth and then pops exactly
the locals whose recorded depth exceeds the new depth, emitting exactly one
`POP` byte per popped local (there is no captured flag and no `CLU`
emission), while shrinking the locals array by the same count. -/
theorem c7_amended (st : PState) (c : Compiler) (rest : List Compiler)
    (hc : st.compilers = c :: rest) :
    curCode (endScope st) = curCode st ++ List.replicate
        ((c.locals.reverse.takeWhile fun l => l.depth > c.scopeDepth - 1).length) OP_POP ∧
    (curComp (endScope st)).locals
      = (c.locals.reverse.dropWhile fun l => l.depth > c.scopeDepth - 1).reverse ∧
    (curComp (endScope st)).scopeDepth = c.scopeDepth - 1 := by
  obtain ⟨tks, cur, prev, comps, sE, hC, hA, hE, pM, dg⟩ := st
  simp only at hc
  subst hc
  have hs := endScopeLoop_spec c.locals.reverse (c.scopeDepth - 1)
  unfold endScope withComp curCode currentChunk curComp
  simp only [List.headD_cons]
  rw [hs.1, hs.2]
  simp

/-- A frame about to close its scope: the reserved slot 0 at depth 0 and one
scoped local `x` at depth 1. -/
def c7Comp : Compiler :=
  { fname := "", arity := 0, chunk := {}, type := .script,
    locals := [{ name := tok .eof "" 0, depth := 0 },
               { name := tok .ident "x" 1, depth := 1 }], scopeDepth := 1 }

/-- The C7 parser state. -/
def c7St : PState := { initState [] with compilers := [c7Comp] }

/-- Modelled from the spec: a local record as §3 of the spec describes it,
with the captured flag that `src/parser.c`'s `local_t` does not have. -/
structure SpecLocal where
  name : Tok
  depth : Int
  captured : Bool
deriving DecidableEq

/-- Modelled from the spec: the emission `endScope` performs per §4.4 — for
every (top-first) local whose depth exceeds the new depth, one `POP`, or one
`CLU` if its captured flag is set. -/
def endScopeSpecEmits : List SpecLocal → Int → List Nat
  | [], _ => []
  | l :: ls, d =>
    if l.depth > d then
      (if l.captured then OP_CLU else OP_POP) :: endScopeSpecEmits ls d
    else []

/-- Counterexample for C7: for a popped local whose captured flag is set (the
spec's scenario: some nested function closes over it), the claimed `endScope`
emits `CLU`; the code's `endScope` — whose locals carry no captured flag —
emits `POP` for it unconditionally. -/
theorem c7_counterexample :
    endScopeSpecEmits [{ name := tok .ident "x" 1, depth := 1, captured := true }] 0
      = [OP_CLU] ∧
    curCode (endScope c7St) = [OP_POP] ∧
    (curComp (endScope c7St)).locals = [{ name := tok .eof "" 0, depth := 0 }] ∧
    OP_POP ≠ OP_CLU :=
  ⟨rfl, rfl, rfl, by decide⟩

/-- Witness for C7 (amended) on the concrete frame `c7Comp`. -/
theorem c7_witness :
    curCode (endScope c7St) = curCode c7St ++ List.replicate
        ((c7Comp.locals.reverse.takeWhile fun l => l.depth > c7Comp.scopeDepth - 1).length)
        OP_POP ∧
    (curComp (endScope c7St)).locals
      = (c7Comp.locals.reverse.dropWhile fun l => l.depth > c7Comp.scopeDepth - 1).reverse ∧
    (curComp (endScope c7St)).scopeDepth = c7Comp.scopeDepth - 1 :=
  c7_amended c7St c7Comp [] rfl

end Au3

namespace Au3

/-- Tokens of the program `puts 1`. -/
def c4Toks : List Tok := [tok .kprint "puts" 1, tok .num "1" 1, tok .eof "" 1]

/-- Counterexample for C4: compiling `puts 1` emits `CONST k0; PRINT 1` and
then the script epilogue `NIL; RET` — the operand of `PRINT` is the
expression count 1, but no `POP` at all follows (the bytecode contains no
`POP`), contradicting the claimed `n` trailing `POP`s. -/
theorem c4_counterexample :
    (compileRun 32 c4Toks).2.diags = [] ∧
    (compileRun 32 c4Toks).1.chunk.code = [OP_CONST, 0, OP_PRINT, 1, OP_NIL, OP_RET] ∧
    OP_POP ∉ (compileRun 32 c4Toks).1.chunk.code :=
  ⟨rfl, rfl, by decide⟩

/-- The `puts` loop only ever returns a count in `1..32`: the 33rd expression
aborts the statement with its diagnostic instead. -/
theorem printLoop_some_bounds :
    ∀ fuel c0 st c st', printLoop fuel c0 st = (some c, st') → c0 < c ∧ c ≤ 32 := by
  intro fuel
  induction fuel with
  | zero =>
    intro c0 st c st' h
    simp [printLoop] at h
  | succ fuel ih =>
    intro c0 st c st' h
    unfold printLoop at h
    dsimp only at h
    split at h
    · simp at h
    · split at h
      · have := ih _ _ _ _ h
        omega
      · rename_i hle _
        injection h with h1 h2
        injection h1 with h1
        omega

/-- C4 (amended): the `puts` statement parses one or more comma-separated
expressions; when the count exceeds 32 it reports "Too many values in 'print'
statement." and returns without emitting anything further; otherwise it emits
`PRINT` with the expression count `n` (1 ≤ n ≤ 32) as its operand — and no
`POP` instructions follow. -/
theorem c4_amended (fuel : Nat) (st : PState) :
    printStatement (fuel+1) st
      = (match printLoop fuel 0 st with
         | (some count, st') => emitBytes st' OP_PRINT count
         | (none, st') => st') ∧
    (∀ c st', printLoop fuel 0 st = (some c, st') → 1 ≤ c ∧ c ≤ 32) := by
  constructor
  · rcases h : printLoop fuel 0 st with ⟨o, st'⟩
    cases o <;> simp [printStatement, h]
  · intro c st' h
    have := printLoop_some_bounds fuel 0 st c st' h
    omega

/-- Witness for C4 (amended): a single-expression `puts` yields count 1. -/
theorem c4_witness : 1 ≤ 1 ∧ 1 ≤ 32 :=
  (c4_amended 5 (startState [tok .num "1" 1, tok .eof "" 1])).2 1
    ((printLoop 5 0 (startState [tok .num "1" 1, tok .eof "" 1])).2) rfl

/-- Sixteen further comma-separated arguments `1, 1, ..., 1)` for the
argument loop. -/
def c5ArgToks : List Tok :=
  tok .num "1" 1 :: (List.replicate 15 [tok .comma "," 1, tok .num "1" 1]).flatten
    ++ [tok .rparen ")" 1, tok .eof "" 1]

/-- The argument-loop state over `c5ArgToks`. -/
def c5ArgSt : PState := startState c5ArgToks

/-- Parameter-list tokens `p33, p32, ..., p1)` (33 distinct parameter
names). -/
def c5ParamToksAux : Nat → List Tok
  | 0 => [tok .rparen ")" 1, tok .eof "" 1]
  | 1 => tok .ident "p1" 1 :: c5ParamToksAux 0
  | n+2 => tok .ident ("p" ++ toString (n+2)) 1 :: tok .comma "," 1 :: c5ParamToksAux (n+1)

/-- A fresh function frame whose parameter list is about to be parsed. -/
def c5ParamComp : Compiler :=
  { fname := "f", arity := 0, chunk := {}, type := .function,
    locals := [{ name := tok .eof "" 0, depth := 0 }], scopeDepth := 1 }

/-- The parameter-loop entry state: `c5ParamComp` with 33 parameters
pending. -/
def c5ParamSt : PState :=
  { startState (c5ParamToksAux 33) with compilers := [c5ParamComp] }

/-- Counterexample for C5: a parameter list of 33 names — far below the
claimed 255-parameter allowance — reports "Cannot have more than 32
parameters."; and the argument loop, continued at count 16 over sixteen
further concrete arguments (a 32-argument call in total, again ≤ 255),
reports "Cannot have more than 32 arguments." the moment the count reaches
32. -/
theorem c5_counterexample :
    (paramLoop 80 c5ParamSt).diags = ["Cannot have more than 32 parameters."] ∧
    (curComp (paramLoop 80 c5ParamSt)).arity = 33 ∧
    (argLoop 20 16 c5ArgSt).1 = 32 ∧
    (argLoop 20 16 c5ArgSt).2.diags = ["Cannot have more than 32 arguments."] ∧
    (33 : Nat) ≤ 255 ∧ (32 : Nat) ≤ 255 :=
  ⟨rfl, rfl, rfl, rfl, by decide, by decide⟩

/-- C5 (amended): `call` emits `CALL` carrying exactly the parsed argument
count; the argument loop reports "Cannot have more than 32 arguments." at the
moment the count reaches 32 and stays silent below that; the parameter loop
reports "Cannot have more than 32 parameters." as soon as the bumped arity
exceeds 32. -/
theorem c5_amended (fuel : Nat) (canAssign : Bool) (st : PState) :
    (call (fuel+1) canAssign st
      = emitBytes (argumentList fuel st).2 OP_CALL (argumentList fuel st).1) ∧
    (∀ stE, stE = error (expression fuel st) "Cannot have more than 32 arguments." →
      argLoop (fuel+1) 31 st
        = (if (matchTok stE .comma).1 = true then argLoop fuel 32 (matchTok stE .comma).2
           else (32, (matchTok stE .comma).2))) ∧
    (∀ c0, c0 + 1 < 32 →
      argLoop (fuel+1) c0 st
        = (if (matchTok (expression fuel st) .comma).1 = true
           then argLoop fuel (c0 + 1) (matchTok (expression fuel st) .comma).2
           else (c0 + 1, (matchTok (expression fuel st) .comma).2))) ∧
    (∀ c rest stE q, st.compilers = c :: rest → c.arity = 32 →
      stE = errorAtCurrent (withComp st fun cc => { cc with arity := cc.arity + 1 })
          "Cannot have more than 32 parameters." →
      q = matchTok (defineVariable (parseVariable stE "Expect parameter name.").2
            (parseVariable stE "Expect parameter name.").1) TokType.comma →
      paramLoop (fuel+1) st = (if q.1 = true then paramLoop fuel q.2 else q.2)) := by
  refine ⟨rfl, ?_, ?_, ?_⟩
  · intro stE hE
    subst hE
    rfl
  · intro c0 h0
    simp only [argLoop]
    rw [Nat.mod_eq_of_lt (show c0 + 1 < 256 by omega)]
    rw [if_neg (show ¬ (c0 + 1 = 32) by omega)]
  · intro c rest stE q hc ha hE hq
    subst hE
    subst hq
    simp only [paramLoop]
    have harity : (curComp (withComp st fun cc => { cc with arity := cc.arity + 1 })).arity
        = c.arity + 1 := by
      unfold curComp withComp
      rw [hc]
      rfl
    rw [harity, ha]
    rw [if_pos (show 32 + 1 > 32 by omega)]

/-- Witness for C5 (amended): the 32nd-argument step at a concrete state. -/
theorem c5_witness :
    argLoop 1 31 (startState [])
      = (if (matchTok (error (expression 0 (startState []))
            "Cannot have more than 32 arguments.") TokType.comma).1 = true
         then argLoop 0 32 (matchTok (error (expression 0 (startState []))
            "Cannot have more than 32 arguments.") TokType.comma).2
         else (32, (matchTok (error (expression 0 (startState []))
            "Cannot have more than 32 arguments.") TokType.comma).2)) :=
  (c5_amended 0 true (startState [])).2.1
    (error (expression 0 (startState [])) "Cannot have more than 32 arguments.") rfl

/-- C9: an expression statement resets the `subExprs`/`hadCall`/`hadAssign`
accounting, parses the expression, emits `POP`, and is rejected with
"Unexpected expression syntax." exactly when it counted at most one
subexpression and saw neither a call nor an assignment — its code and the
trailing `POP` having already been emitted (the diagnostic leaves the chunk
untouched).  Concretely: a bare identifier statement is rejected; a call
statement and a two-subexpression statement are accepted. -/
theorem c9_expression_statement (fuel : Nat) (st stE : PState)
    (hE : stE = emitByte (expression fuel
        { st with hadCall := false, hadAssign := false, subExprs := 0 }) OP_POP) :
    expressionStatement (fuel+1) st
      = (if stE.subExprs ≤ 1 ∧ stE.hadCall = false ∧ stE.hadAssign = false
         then error stE "Unexpected expression syntax." else stE) ∧
    curCode (error stE "Unexpected expression syntax.") = curCode stE ∧
    (compileRun 32 [tok .ident "x" 1, tok .eof "" 1]).2.diags
      = ["Unexpected expression syntax."] ∧
    (compileRun 32 [tok .ident "f" 1, tok .lparen "(" 1, tok .rparen ")" 1,
        tok .eof "" 1]).2.diags = [] ∧
    (compileRun 32 [tok .num "1" 1, tok .plus "+" 1, tok .num "2" 1,
        tok .eof "" 1]).2.diags = [] := by
  subst hE
  refine ⟨rfl, ?_, rfl, rfl, rfl⟩
  unfold error errorAt
  split <;> rfl

/-- Witness for C9: the bare-identifier program `x` is rejected with the
"Unexpected expression syntax." diagnostic. -/
theorem c9_witness :
    (compileRun 32 [tok .ident "x" 1, tok .eof "" 1]).2.diags
      = ["Unexpected expression syntax."] :=
  (c9_expression_statement 0 (initState []) _ rfl).2.2.1

end Au3
